import Mathlib

/-!
Verification of the `ValentinKolb/ssr` transform-and-bundle pipeline.

Strings from the TypeScript source are modelled as `List Char`; machine
integers are `Nat` with explicit reduction modulo `2 ^ 32` / `2 ^ 64` where
the source (or the md5 algorithm it calls through `Bun.CryptoHasher`)
overflows.  Every definition is translated from the repository source:
`src/src/transform.ts` (the Babel SSR transform), `src/src/index.ts`
(`createConfig`: the `html` renderer, the build-once plugin, and the
adapter utilities with `safePath`), and the island bundler
(`buildIslands`).
-/

set_option maxRecDepth 100000

namespace Ssr

/-- JavaScript strings, modelled as lists of characters. -/
abbrev Str := List Char

/-- `s.includes(pat)` on JavaScript strings: substring containment. -/
def includesStr (s pat : Str) : Bool := decide (pat <:+: s)

/-! ### md5, as computed by `Bun.CryptoHasher("md5")`

`hash` in `src/src/transform.ts` is
`new Bun.CryptoHasher("md5").update(s).digest("hex").slice(0, 8)`.
`Bun.CryptoHasher` hashes the UTF-8 bytes of the string with standard md5
(RFC 1321); we implement md5 over `Nat` byte lists. -/

/-- UTF-8 encoding of a single character (byte values as `Nat < 256`). -/
def utf8Bytes (c : Char) : List Nat :=
  let n := c.toNat
  if n < 128 then [n]
  else if n < 2048 then [192 ||| (n >>> 6), 128 ||| (n &&& 63)]
  else if n < 65536 then
    [224 ||| (n >>> 12), 128 ||| ((n >>> 6) &&& 63), 128 ||| (n &&& 63)]
  else
    [240 ||| (n >>> 18), 128 ||| ((n >>> 12) &&& 63),
     128 ||| ((n >>> 6) &&& 63), 128 ||| (n &&& 63)]

/-- UTF-8 bytes of a string. -/
def strBytes (s : Str) : List Nat := s.foldr (fun c acc => utf8Bytes c ++ acc) []

/-- Little-endian 8-byte encoding of a 64-bit value. -/
def le64 (n : Nat) : List Nat :=
  [n &&& 255, (n >>> 8) &&& 255, (n >>> 16) &&& 255, (n >>> 24) &&& 255,
   (n >>> 32) &&& 255, (n >>> 40) &&& 255, (n >>> 48) &&& 255, (n >>> 56) &&& 255]

/-- Little-endian 4-byte encoding of a 32-bit value. -/
def le32 (n : Nat) : List Nat :=
  [n &&& 255, (n >>> 8) &&& 255, (n >>> 16) &&& 255, (n >>> 24) &&& 255]

/-- md5 padding: append `0x80`, zero bytes to 56 mod 64, then the 64-bit
little-endian bit length. -/
def md5Pad (msg : List Nat) : List Nat :=
  let len := msg.length
  let zeros := (120 - ((len + 1) % 64)) % 64
  msg ++ [128] ++ List.replicate zeros 0 ++ le64 ((len * 8) % 2 ^ 64)

/-- Split a byte list into 64-byte blocks (input length is a multiple of 64
after padding; a trailing partial block is discarded as it cannot occur). -/
def splitBlocks (bytes : List Nat) : List (List Nat) :=
  let step := fun (acc : List (List Nat) × List Nat) b =>
    let cur := acc.2 ++ [b]
    if cur.length = 64 then (acc.1 ++ [cur], ([] : List Nat)) else (acc.1, cur)
  (bytes.foldl step ([], [])).1

/-- The `i`-th little-endian 32-bit word of a 64-byte block. -/
def wordAt (block : List Nat) (i : Nat) : Nat :=
  block.getD (4 * i) 0 + 256 * block.getD (4 * i + 1) 0 +
    65536 * block.getD (4 * i + 2) 0 + 16777216 * block.getD (4 * i + 3) 0

/-- Addition modulo `2 ^ 32`. -/
def add32 (x y : Nat) : Nat := (x + y) % 4294967296

/-- 32-bit left rotation. -/
def rotl32 (x c : Nat) : Nat := ((x <<< c) ||| (x >>> (32 - c))) % 4294967296

/-- md5 round function (rounds 0–15: F, 16–31: G, 32–47: H, 48–63: I). -/
def md5F (i b c d : Nat) : Nat :=
  if i < 16 then (b &&& c) ||| ((4294967295 ^^^ b) &&& d)
  else if i < 32 then (d &&& b) ||| ((4294967295 ^^^ d) &&& c)
  else if i < 48 then b ^^^ c ^^^ d
  else c ^^^ (b ||| (4294967295 ^^^ d))

/-- md5 message-word index schedule. -/
def md5G (i : Nat) : Nat :=
  if i < 16 then i
  else if i < 32 then (5 * i + 1) % 16
  else if i < 48 then (3 * i + 5) % 16
  else (7 * i) % 16

/-- md5 sine-derived round constants (RFC 1321, `T[i] = ⌊|sin(i+1)| · 2³²⌋`). -/
def md5K : List Nat :=
  [0xd76aa478, 0xe8c7b756, 0x242070db, 0xc1bdceee, 0xf57c0faf, 0x4787c62a,
   0xa8304613, 0xfd469501, 0x698098d8, 0x8b44f7af, 0xffff5bb1, 0x895cd7be,
   0x6b901122, 0xfd987193, 0xa679438e, 0x49b40821, 0xf61e2562, 0xc040b340,
   0x265e5a51, 0xe9b6c7aa, 0xd62f105d, 0x02441453, 0xd8a1e681, 0xe7d3fbc8,
   0x21e1cde6, 0xc33707d6, 0xf4d50d87, 0x455a14ed, 0xa9e3e905, 0xfcefa3f8,
   0x676f02d9, 0x8d2a4c8a, 0xfffa3942, 0x8771f681, 0x6d9d6122, 0xfde5380c,
   0xa4beea44, 0x4bdecfa9, 0xf6bb4b60, 0xbebfbc70, 0x289b7ec6, 0xeaa127fa,
   0xd4ef3085, 0x04881d05, 0xd9d4d039, 0xe6db99e5, 0x1fa27cf8, 0xc4ac5665,
   0xf4292244, 0x432aff97, 0xab9423a7, 0xfc93a039, 0x655b59c3, 0x8f0ccc92,
   0xffeff47d, 0x85845dd1, 0x6fa87e4f, 0xfe2ce6e0, 0xa3014314, 0x4e0811a1,
   0xf7537e82, 0xbd3af235, 0x2ad7d2bb, 0xeb86d391]

/-- md5 per-round left-rotation amounts. -/
def md5S : List Nat :=
  [7, 12, 17, 22, 7, 12, 17, 22, 7, 12, 17, 22, 7, 12, 17, 22,
   5, 9, 14, 20, 5, 9, 14, 20, 5, 9, 14, 20, 5, 9, 14, 20,
   4, 11, 16, 23, 4, 11, 16, 23, 4, 11, 16, 23, 4, 11, 16, 23,
   6, 10, 15, 21, 6, 10, 15, 21, 6, 10, 15, 21, 6, 10, 15, 21]

/-- One md5 round: rotate the state `(a, b, c, d)`. -/
def md5Round (block : List Nat) (st : Nat × Nat × Nat × Nat) (i : Nat) :
    Nat × Nat × Nat × Nat :=
  let a := st.1; let b := st.2.1; let c := st.2.2.1; let d := st.2.2.2
  let f := add32 (add32 (add32 a (md5F i b c d)) (md5K.getD i 0))
    (wordAt block (md5G i))
  (d, add32 b (rotl32 f (md5S.getD i 0)), b, c)

/-- Process one 64-byte block: 64 rounds, then add the incoming state. -/
def md5Block (st : Nat × Nat × Nat × Nat) (block : List Nat) :
    Nat × Nat × Nat × Nat :=
  let r := (List.range 64).foldl (md5Round block) st
  (add32 st.1 r.1, add32 st.2.1 r.2.1, add32 st.2.2.1 r.2.2.1,
   add32 st.2.2.2 r.2.2.2)

/-- md5 initial state. -/
def md5Init : Nat × Nat × Nat × Nat :=
  (0x67452301, 0xefcdab89, 0x98badcfe, 0x10325476)

/-- The 16-byte md5 digest of a string's UTF-8 bytes. -/
def md5Digest (s : Str) : List Nat :=
  let st := (splitBlocks (md5Pad (strBytes s))).foldl md5Block md5Init
  le32 st.1 ++ le32 st.2.1 ++ le32 st.2.2.1 ++ le32 st.2.2.2

/-- Lowercase hexadecimal digit. -/
def hexDigit (n : Nat) : Char :=
  if n < 10 then Char.ofNat (48 + n) else Char.ofNat (87 + n)

/-- Two-digit lowercase hex of a byte. -/
def byteHex (b : Nat) : Str := [hexDigit (b / 16), hexDigit (b % 16)]

/-- `digest("hex")`: lowercase hex string of the md5 digest. -/
def md5Hex (s : Str) : Str := (md5Digest s).foldr (fun b acc => byteHex b ++ acc) []

/-- `src/src/transform.ts` line 16:
`hash = (s) => new Bun.CryptoHasher("md5").update(s).digest("hex").slice(0, 8)`. -/
def hash (s : Str) : Str := (md5Hex s).take 8

/-! ### Component classifier

`src/src/transform.ts` lines 40–47 and the island bundler (`build` module)
line 11 each define their own `getComponentType`; both are modelled here,
the bundler's inside the `Build` namespace. -/

/-- Render classes of component files. -/
inductive ComponentType where
  | island
  | client
deriving DecidableEq, Repr

/-- `transform.ts` lines 42–47:
`path.includes(".island") ? "island" : path.includes(".client") ? "client" : null`. -/
def getComponentType (path : Str) : Option ComponentType :=
  if includesStr path ".island".data then some .island
  else if includesStr path ".client".data then some .client
  else none

/-- The bundler's classifier (`build` module line 11):
`path.includes(".client.") ? "client" : "island"` — total, no `null` case. -/
def buildGetComponentType (path : Str) : ComponentType :=
  if includesStr path ".client.".data then .client else .island

/-! ### POSIX path helpers (`node:path`)

The transform calls `join(dirname(filename), source)`; the adapter utils
call `resolve(base, filename)`.  These model `path.posix` behaviour. -/

/-- Split a path on `'/'`. -/
def splitSlash (p : Str) : List Str := p.splitOn '/'

/-- POSIX absolute path test (`path.charCodeAt(0) === '/'`). -/
def isAbsolute (p : Str) : Bool := p.head? = some '/'

/-- One step of the segment normalization of `path.posix.normalize`: drop
empty and `"."` segments, let `".."` pop the previous segment; when
`allowAboveRoot` (relative paths) leading `".."` segments are kept,
otherwise (absolute paths) they are dropped at the root. -/
def normStep (allowAboveRoot : Bool) (acc : List Str) (seg : Str) : List Str :=
  if seg = [] ∨ seg = ['.'] then acc
  else if seg = ['.', '.'] then
    if acc ≠ [] ∧ acc.getLast? ≠ some ['.', '.'] then acc.dropLast
    else if allowAboveRoot then acc ++ [seg]
    else acc
  else acc ++ [seg]

/-- Core segment normalization of `path.posix.normalize`. -/
def normSegs (allowAboveRoot : Bool) (segs : List Str) : List Str :=
  segs.foldl (normStep allowAboveRoot) []

/-- `path.posix.normalize`. -/
def normalizePath (p : Str) : Str :=
  let abs := p.head? = some '/'
  let trailingSep := p.getLast? = some '/' ∧ p.length > 1
  let core := List.intercalate ['/'] (normSegs (!(isAbsolute p)) (splitSlash p))
  let core := if trailingSep ∧ core ≠ [] then core ++ ['/'] else core
  if abs then '/' :: core
  else if core = [] then ['.']
  else core

/-- `path.posix.join(a, b)`: concatenate with a separator and normalize. -/
def joinPath (a b : Str) : Str := normalizePath (a ++ ['/'] ++ b)

/-- `path.posix.dirname`: the path with its final segment removed
(trailing separators ignored). -/
def dirname (p : Str) : Str :=
  let r := p.reverse.dropWhile (· = '/')
  let pre := (r.dropWhile (· ≠ '/')).drop 1
  if pre = [] then (if p.head? = some '/' then ['/'] else ['.'])
  else pre.reverse

/-! ### Babel AST model

Just the node kinds the plugin in `transform.ts` manipulates: expressions
(for attribute values and the props object), JSX attributes (named,
boolean-shorthand and spread), JSX elements, import declarations and
top-level statements. -/

/-- Expressions, as far as the plugin builds or moves them. -/
inductive Expr where
  | ident (name : Str)
  | strLit (s : Str)
  | boolLit (b : Bool)
  | numLit (n : Int)
  | call (callee : Expr) (args : List Expr)
  | obj (props : List (Str × Expr))

/-- A JSX attribute value: either a plain literal value node (e.g. a string
literal, `name="x"`) or an expression container (`name={e}`). -/
inductive AttrValue where
  | lit (e : Expr)
  | exprContainer (e : Expr)

/-- A JSX attribute: `JSXAttribute` (with optional value; `none` is the
boolean shorthand) or `JSXSpreadAttribute`. -/
inductive JSXAttr where
  | jsxAttribute (name : Str) (value : Option AttrValue)
  | jsxSpreadAttribute (arg : Expr)

/-- JSX tree nodes. -/
inductive Node where
  | elem (tag : Str) (attrs : List JSXAttr) (children : List Node)
  | text (s : Str)

/-- `transform.ts` lines 20–26: the `jsx` helper (the self-closing flag
only affects printing and is not modelled). -/
def jsx (tag : Str) (attrs : List JSXAttr) (children : List Node) : Node :=
  .elem tag attrs children

/-- `transform.ts` lines 28–34: the `attr` helper — a string value becomes
a string literal, anything else is wrapped in an expression container. -/
def attrStrVal (name : Str) (value : Str) : JSXAttr :=
  .jsxAttribute name (some (.lit (.strLit value)))

/-- The `attr` helper applied to a non-string (expression) value. -/
def attrExprVal (name : Str) (value : Expr) : JSXAttr :=
  .jsxAttribute name (some (.exprContainer value))

/-- ES import specifiers. -/
inductive ImportSpecifier where
  | importDefaultSpecifier (localName : Str)
  | importNamedSpecifier (imported localName : Str)
  | importNamespaceSpecifier (localName : Str)

/-- An import declaration: source string plus specifier list. -/
structure ImportDecl where
  source : Str
  specifiers : List ImportSpecifier

/-- Local name bound by a specifier. -/
def localOf : ImportSpecifier → Str
  | .importDefaultSpecifier n => n
  | .importNamedSpecifier _ n => n
  | .importNamespaceSpecifier n => n

/-- `s.type === "ImportDefaultSpecifier"`. -/
def isDefaultSpecifier : ImportSpecifier → Bool
  | .importDefaultSpecifier _ => true
  | _ => false

/-- Top-level statements, as far as the plugin distinguishes them. -/
inductive Stmt where
  | importStmt (d : ImportDecl)
  | varConstStmt (name : Str) (init : Expr)
  | jsxStmt (n : Node)
  | otherStmt

/-- A program is its statement list (document order). -/
abbrev Program := List Stmt

/-! ### The component wrapper plugin (`transform.ts` lines 49–154) -/

/-- A recorded import binding: `{ path, type }`. -/
structure Component where
  path : Str
  type : ComponentType

/-- `componentImports` is a JS `Map`; `set` replaces an existing key in
place or appends a new one. -/
def mapSet (m : List (Str × Component)) (k : Str) (v : Component) :
    List (Str × Component) :=
  if m.any (·.1 = k) then m.map (fun p => if p.1 = k then (k, v) else p)
  else m ++ [(k, v)]

/-- JS `Map.get`. -/
def mapGet (m : List (Str × Component)) (k : Str) : Option Component :=
  (m.find? (·.1 = k)).map (·.2)

/-- `absPath.match(/\.(tsx|jsx|ts|js)$/)`. -/
def hasSourceExt (p : Str) : Bool :=
  decide (".tsx".data <:+ p) || decide (".jsx".data <:+ p) ||
    decide (".ts".data <:+ p) || decide (".js".data <:+ p)

/-- The `ImportDeclaration` visitor (`transform.ts` lines 80–102): record a
binding only for imports whose source has an island/client marker *and*
which have a default specifier; relative sources are joined against
the importing file's directory and a `.tsx` extension is appended when no
recognized extension is present.  (The nested-component `console.warn` has
no effect on the output and is not modelled.) -/
def processImport (filename : Str) (m : List (Str × Component))
    (d : ImportDecl) : List (Str × Component) :=
  match getComponentType d.source with
  | none => m
  | some ty =>
    match d.specifiers.find? isDefaultSpecifier with
    | none => m
    | some spec =>
      let absPath :=
        if d.source.head? = some '.' then joinPath (dirname filename) d.source
        else d.source
      let absPath := if hasSourceExt absPath then absPath else absPath ++ ".tsx".data
      mapSet m (localOf spec) ⟨absPath, ty⟩

/-- `a.type === "JSXAttribute"`. -/
def isJSXAttribute : JSXAttr → Bool
  | .jsxAttribute _ _ => true
  | .jsxSpreadAttribute _ => false

/-- The attribute-value ternary of `transform.ts` lines 119–121:
`a.value?.type === "JSXExpressionContainer" ? a.value.expression : a.value || t.booleanLiteral(true)`. -/
def attrValueExpr : Option AttrValue → Expr
  | some (.exprContainer e) => e
  | some (.lit e) => e
  | none => .boolLit true

/-- One object property of the props aggregate (only reached for
`jsxAttribute`s; the spread branch is unreachable after the filter). -/
def propEntry : JSXAttr → Str × Expr
  | .jsxAttribute n v => (n, attrValueExpr v)
  | .jsxSpreadAttribute _ => ([], .boolLit true)

/-- `transform.ts` lines 113–124: the props aggregate —
`attributes.filter(a => a.type === "JSXAttribute").map(a => objectProperty(...))`. -/
def propsOf (attrs : List JSXAttr) : List (Str × Expr) :=
  (attrs.filter isJSXAttribute).map propEntry

/-- `component.path.split("/").pop() || ""`. -/
def basenameOf (p : Str) : Str := (splitSlash p).getLast?.getD []

/-- Attributes of a JSX node. -/
def attrsOfNode : Node → List JSXAttr
  | .elem _ a _ => a
  | .text _ => []

/-- Children of a JSX node. -/
def childrenOfNode : Node → List Node
  | .elem _ _ c => c
  | .text _ => []

/-- Tag of a JSX node (`""` for text). -/
def tagOfNode : Node → Str
  | .elem t _ _ => t
  | .text _ => []

/-- The wrapper's attribute list (`transform.ts` lines 132–143): `data-id`,
`data-props = {__seroval_serialize(props)}` and, in dev mode, `data-file`. -/
def wrapperAttrs (comp : Component) (dev : Bool) (props : List (Str × Expr)) :
    List JSXAttr :=
  [attrStrVal "data-id".data (hash comp.path),
   attrExprVal "data-props".data
     (.call (.ident "__seroval_serialize".data) [.obj props])] ++
  (if dev then [attrStrVal "data-file".data (basenameOf comp.path)] else [])

/-- The `JSXElement` visitor body for a matched usage site (`transform.ts`
lines 104–149): build the wrapper element — `solid-island` keeps the
original usage as its only child, `solid-client` gets no children. -/
def wrapUsage (comp : Component) (dev : Bool) (node : Node) : Node :=
  let wrapperTag :=
    if comp.type = .island then "solid-island".data else "solid-client".data
  let children := if comp.type = .island then [node] else []
  jsx wrapperTag (wrapperAttrs comp dev (propsOf (attrsOfNode node))) children

mutual

/-- JSX traversal: a usage site whose tag is a recorded import binding is
replaced by its wrapper and skipped (`path.skip()` — the replacement and
the preserved original subtree are not traversed further); other elements
recurse into their children.  (Traversal into expressions nested inside
attribute values is not modelled.) -/
def rewriteNode (m : List (Str × Component)) (dev : Bool) : Node → Node
  | .text s => .text s
  | .elem tag attrs children =>
    match mapGet m tag with
    | some comp => wrapUsage comp dev (.elem tag attrs children)
    | none => .elem tag attrs (rewriteNodes m dev children)

/-- Pointwise traversal of child lists. -/
def rewriteNodes (m : List (Str × Component)) (dev : Bool) :
    List Node → List Node
  | [] => []
  | n :: ns => rewriteNode m dev n :: rewriteNodes m dev ns

end

/-- The injected `import { serialize } from "seroval"`
(`transform.ts` lines 61–70). -/
def serovalImportStmt : Stmt :=
  .importStmt ⟨"seroval".data, [.importNamedSpecifier "serialize".data "serialize".data]⟩

/-- The injected `const __seroval_serialize = serialize`
(`transform.ts` lines 71–77). -/
def serovalBindingStmt : Stmt :=
  .varConstStmt "__seroval_serialize".data (.ident "serialize".data)

/-- The program traversal (`programPath.traverse`, lines 79–150): one pass
in document order, threading the `componentImports` map — statements seen
before an import declaration do not see its binding. -/
def transformStmts (filename : Str) (dev : Bool) :
    List (Str × Component) → List Stmt → List Stmt
  | _, [] => []
  | m, .importStmt d :: rest =>
    .importStmt d :: transformStmts filename dev (processImport filename m d) rest
  | m, .jsxStmt n :: rest =>
    .jsxStmt (rewriteNode m dev n) :: transformStmts filename dev m rest
  | m, s :: rest => s :: transformStmts filename dev m rest

/-- The whole plugin pass (`componentWrapperPlugin`): unshift the
seroval import and binding, then traverse. -/
def componentWrapperPlugin (filename : Str) (dev : Bool) (p : Program) : Program :=
  transformStmts filename dev [] (serovalImportStmt :: serovalBindingStmt :: p)

/-- Compile modes of `transform` (`"ssr" | "dom"`). -/
inductive Mode where
  | ssr
  | dom
deriving DecidableEq

/-- `transform.ts` lines 160–187 at the AST level: in `ssr` mode the
wrapper plugin runs first; in `dom` mode it does not run at all.  The
subsequent preset compilation (babel-preset-solid / preset-typescript) is
external to this repository and is the identity on the modelled constructs
(it introduces no seroval bindings and no wrapper elements). -/
def transform (source : Program) (filename : Str) (mode : Mode) (dev : Bool) :
    Program :=
  match mode with
  | .ssr => componentWrapperPlugin filename dev source
  | .dom => source

/-- Does a statement import from `"seroval"`? -/
def stmtHasSerovalImport : Stmt → Bool
  | .importStmt d => d.source = "seroval".data
  | _ => false

/-- Does a statement bind `__seroval_serialize`? -/
def stmtHasSerovalBinding : Stmt → Bool
  | .varConstStmt n _ => n = "__seroval_serialize".data
  | _ => false

mutual

/-- Does a JSX tree contain a `solid-island`/`solid-client` element? -/
def nodeHasWrapperTag : Node → Bool
  | .text _ => false
  | .elem tag _ children =>
    tag = "solid-island".data || tag = "solid-client".data ||
      nodesHaveWrapperTag children

/-- Any wrapper element in a node list? -/
def nodesHaveWrapperTag : List Node → Bool
  | [] => false
  | n :: ns => nodeHasWrapperTag n || nodesHaveWrapperTag ns

end

/-- Any wrapper element in a statement? -/
def stmtHasWrapperTag : Stmt → Bool
  | .jsxStmt n => nodeHasWrapperTag n
  | _ => false

/-! ### Render-time script injection (`src/src/index.ts` lines 117–151)

`html` scans the rendered body with
`/<solid-(island|client) data-id="([^"]+)"/g`, de-duplicates each group
with `new Set`, concatenates islands before clients and emits one script
tag per id. -/

/-- First-seen de-duplication, mirroring `[...new Set(list)]` (a JS `Set`
keeps first-insertion order). -/
def dedupFSAux {α : Type} [DecidableEq α] (seen : List α) : List α → List α
  | [] => []
  | a :: l =>
    if a ∈ seen then dedupFSAux seen l else a :: dedupFSAux (a :: seen) l

/-- `[...new Set(l)]`. -/
def dedupFS {α : Type} [DecidableEq α] (l : List α) : List α := dedupFSAux [] l

/-- Position of the first occurrence of an element in a list (the list's
length when absent) — used to state first-seen ordering. -/
def firstIdx {α : Type} [DecidableEq α] (a : α) : List α → Nat
  | [] => 0
  | b :: l => if a = b then 0 else firstIdx a l + 1

/-- Number of occurrences of an element in a list — used to state the
one-script-per-id property. -/
def countEq {α : Type} [DecidableEq α] (a : α) : List α → Nat
  | [] => 0
  | b :: l => (if a = b then 1 else 0) + countEq a l

/-- The literal part of the regex for islands. -/
def pIsland : Str := "<solid-island data-id=\"".data

/-- The literal part of the regex for clients. -/
def pClient : Str := "<solid-client data-id=\"".data

/-- `([^"]+)"`: a maximal non-empty run of non-quote characters followed by
a closing quote; returns the captured id and the rest of the input. -/
def captureId (s : Str) : Option (Str × Str) :=
  let id := s.takeWhile (· ≠ '"')
  let rest := s.dropWhile (· ≠ '"')
  if id ≠ [] ∧ rest.head? = some '"' then some (id, rest.tail) else none

/-- One regex-match attempt at the current position. -/
def scanStep (s : Str) : Option ((ComponentType × Str) × Str) :=
  if decide (pIsland <+: s) then
    (captureId (s.drop pIsland.length)).map (fun p => ((.island, p.1), p.2))
  else if decide (pClient <+: s) then
    (captureId (s.drop pClient.length)).map (fun p => ((.client, p.1), p.2))
  else none

/-- Fuelled scan loop: non-overlapping leftmost matches, continuing after
each match (the semantics of `matchAll` with a `g` regex); every step
consumes at least one character, so fuel = input length suffices. -/
def scanAux : Nat → Str → List (ComponentType × Str)
  | 0, _ => []
  | _ + 1, [] => []
  | fuel + 1, c :: cs =>
    match scanStep (c :: cs) with
    | some (m, rest) => m :: scanAux fuel rest
    | none => scanAux fuel cs

/-- `[...body.matchAll(/<solid-(island|client) data-id="([^"]+)"/g)]`
as (render class, id) pairs. -/
def scanMatches (body : Str) : List (ComponentType × Str) :=
  scanAux body.length body

/-- The island-match ids of a body, in match order
(`matches.filter(m => m[1] === "island").map(m => m[2])`). -/
def islandIdsInOrder (body : Str) : List Str :=
  ((scanMatches body).filter (fun m => m.1 = ComponentType.island)).map (·.2)

/-- The client-match ids of a body, in match order. -/
def clientIdsInOrder (body : Str) : List Str :=
  ((scanMatches body).filter (fun m => m.1 = ComponentType.client)).map (·.2)

/-- `index.ts` lines 121–130: island ids then client ids, each group
de-duplicated with `new Set` in first-seen order
(`islandIds = [...islands, ...clients]`). -/
def htmlScriptIds (body : Str) : List Str :=
  dedupFS (islandIdsInOrder body) ++ dedupFS (clientIdsInOrder body)

/-- `<script type="module" src="/_ssr/${id}.js"></script>`. -/
def scriptTag (id : Str) : Str :=
  "<script type=\"module\" src=\"/_ssr/".data ++ id ++ ".js\"></script>".data

/-- The emitted component script tags, in order (`index.ts` lines 133–135). -/
def htmlScriptTags (body : Str) : List Str := (htmlScriptIds body).map scriptTag

/-! ### Island bundler / build orchestrator (the `build` module)

`buildIslands` discovers component files (discovery and the bundler call
are external I/O: the discovered file list and the bundler's result are
parameters), warns on duplicate basenames, and collects logs.  Its return
type is `Except`, and every code path returns `.ok`: the function never
throws. -/

/-- Console output entries. -/
inductive LogMsg where
  | info (s : Str)
  | warn (s : Str)
  | error (s : Str)
deriving DecidableEq

/-- The bundler's report (`result.success`, `result.logs`). -/
structure BuildResult where
  success : Bool
  logs : List Str

/-- Component metadata (`build` module lines 39–44). -/
structure BuildComponent where
  path : Str
  id : Str
  type : ComponentType
  selector : Str

/-- `getSelector` (lines 13–14). -/
def getSelector (t : ComponentType) (id : Str) : Str :=
  if t = ComponentType.island then
    "solid-island[data-id=\"".data ++ id ++ "\"]".data
  else "solid-client[data-id=\"".data ++ id ++ "\"]".data

/-- The `filenameMap` grouping (lines 47–54): push each path onto the group
of its basename, keys in first-seen order. -/
def addToGroup (m : List (Str × List Str)) (k : Str) (v : Str) :
    List (Str × List Str) :=
  if m.any (·.1 = k) then
    m.map (fun g => if g.1 = k then (g.1, g.2 ++ [v]) else g)
  else m ++ [(k, [v])]

/-- `filenameMap` built over the component paths. -/
def filenameGroups (paths : List Str) : List (Str × List Str) :=
  paths.foldl (fun m p => addToGroup m (basenameOf p) p) []

/-- Basename groups with more than one member (the warned groups,
lines 56–63). -/
def duplicateGroups (paths : List Str) : List (Str × List Str) :=
  (filenameGroups paths).filter (fun g => g.2.length > 1)

/-- `buildIslands` (lines 16–127).  `rel` models `relative(process.cwd(), ·)`
(external `node:path` call used only inside log text); `files` is the glob
result; `result` the bundler's report.  No code path throws: every branch
returns `.ok` with the collected console output. -/
def buildIslands (rel : Str → Str) (outdir : Str) (files : List Str)
    (verbose dev : Bool) (result : BuildResult) : Except Str (List LogMsg) :=
  if files.length = 0 then
    .ok (if verbose then [.info "No island/client files found.".data] else [])
  else
    let components := files.map (fun p =>
      ({ path := p, id := hash p, type := buildGetComponentType p,
         selector := getSelector (buildGetComponentType p) (hash p) } : BuildComponent))
    let dupLogs := (duplicateGroups (components.map (·.path))).foldl
      (fun acc g =>
        acc ++
          [LogMsg.warn
            ("[ssr] Warning: Multiple files with the same name detected: ".data ++ g.1),
           LogMsg.warn "  Files:".data] ++
          g.2.map (fun p => LogMsg.warn ("    - ".data ++ rel p)) ++
          [LogMsg.warn
            "  This will cause hash collisions. Consider renaming these files.".data])
      []
    let verboseLogs :=
      if verbose then
        components.map (fun c =>
          LogMsg.info (rel c.path ++ " -> ".data ++ outdir ++ ['/'] ++ c.id ++ ".js".data)) ++
        [LogMsg.info
          ("Built ".data ++ (toString files.length).data ++ " component(s) to ".data ++
            outdir ++ ['/'])]
      else []
    let failLogs :=
      if result.success then []
      else LogMsg.error "Build failed:".data ::
        result.logs.map (fun m => LogMsg.error ("  ".data ++ m))
    .ok (dupLogs ++ verboseLogs ++ failLogs)

/-- Whether the bundler was invoked at all (`files.length` guard,
lines 33–36): with no files the orchestrator returns before `Bun.build`. -/
def bundlerInvoked (files : List Str) : Bool := ¬files.length = 0

/-! ### The build-once flag (`src/src/index.ts` lines 153–197)

`createConfig` closes over `let islandsBuilt = false`; `ensureIslands`
returns early when the flag is set, otherwise sets it and invokes
`buildIslands` with the plugin's configuration. -/

/-- The argument record of the `buildIslands` call (lines 168–173). -/
structure BuildCall where
  pattern : Str
  outdir : Str
  verbose : Bool
  dev : Bool
deriving DecidableEq

/-- `COMPONENT_PATTERN` (`index.ts` line 19). -/
def COMPONENT_PATTERN : Str := "**/*.\x7bisland,client\x7d.tsx".data

/-- `prodOutdir ? join(prodOutdir, "_ssr") : "_ssr"` (line 163). -/
def islandsOutdir (prodOutdir : Option Str) : Str :=
  match prodOutdir with
  | some o => joinPath o "_ssr".data
  | none => "_ssr".data

/-- The `buildIslands` call configured by the plugin (lines 168–173),
with `verbose ?? !dev`. -/
def mkBuildCall (prodOutdir : Option Str) (verbose : Option Bool) (dev : Bool) :
    BuildCall :=
  { pattern := COMPONENT_PATTERN, outdir := islandsOutdir prodOutdir,
    verbose := verbose.getD (!dev), dev := dev }

/-- One `ensureIslands()` call (lines 165–174): returns the new flag value
and the `buildIslands` invocation it makes, if any. -/
def ensureIslands (islandsBuilt : Bool) (call : BuildCall) :
    Bool × Option BuildCall :=
  if islandsBuilt then (true, none) else (true, some call)

/-- A sequence of `n` `ensureIslands()` calls (from `onStart` and the
`onLoad` hooks) starting from a flag state, collecting every `buildIslands`
invocation made. -/
def runEnsureCalls (call : BuildCall) : Nat → Bool → List BuildCall
  | 0, _ => []
  | n + 1, flag =>
    let step := ensureIslands flag call
    step.2.toList ++ runEnsureCalls call n step.1

/-! ### `safePath` and `path.posix.resolve`
(`src/src/index.ts` adapter utils, lines 279–282) -/

/-- Right-to-left accumulation of `path.posix.resolve`: segments are
prepended until an absolute one is found, else the working directory is
prepended. -/
def joinUntilAbsolute (cwd : Str) : List Str → Str
  | [] => cwd
  | p :: rest =>
    if isAbsolute p then p else joinUntilAbsolute cwd rest ++ ['/'] ++ p

/-- `path.posix.resolve(...paths)` with working directory `cwd`. -/
def resolvePath (cwd : Str) (paths : List Str) : Str :=
  let joined := joinUntilAbsolute cwd paths.reverse
  let abs := isAbsolute joined
  let core := List.intercalate ['/'] (normSegs (!abs) (splitSlash joined))
  if abs then '/' :: core
  else if core = [] then ['.']
  else core

/-- `safePath(base, filename)` (lines 279–282):
`resolve(base, filename)` must start with `resolve(base) + "/"`. -/
def safePath (cwd base filename : Str) : Option Str :=
  let resolved := resolvePath cwd [base, filename]
  if decide ((resolvePath cwd [base] ++ ['/']) <+: resolved) then some resolved
  else none

/-- Program-level observer: any import from `"seroval"`. -/
def hasSerovalImport (p : Program) : Bool := p.any stmtHasSerovalImport

/-- Program-level observer: any `__seroval_serialize` binding. -/
def hasSerovalBinding (p : Program) : Bool := p.any stmtHasSerovalBinding

/-- Program-level observer: any `solid-island`/`solid-client` element. -/
def progHasWrapperTag (p : Program) : Bool := p.any stmtHasWrapperTag

end Ssr

namespace Ssr

/-! ### Helper lemmas -/

/-- Substring containment is transitive through a fixed middle string. -/
theorem includesStr_of_includesStr {s pat₁ pat₂ : Str}
    (hsub : pat₁ <:+: pat₂) (h : includesStr s pat₂ = true) :
    includesStr s pat₁ = true := by
  have h₂ : pat₂ <:+: s := of_decide_eq_true h
  exact decide_eq_true (hsub.trans h₂)

/-- Membership in the first-seen de-duplication. -/
theorem mem_dedupFSAux {α : Type} [DecidableEq α] (seen l : List α) (a : α) :
    a ∈ dedupFSAux seen l ↔ a ∈ l ∧ a ∉ seen := by
  induction l generalizing seen with
  | nil => simp [dedupFSAux]
  | cons c cs ih =>
    by_cases hc : c ∈ seen
    · rw [dedupFSAux, if_pos hc, ih seen]
      constructor
      · rintro ⟨h1, h2⟩
        exact ⟨List.mem_cons_of_mem _ h1, h2⟩
      · rintro ⟨h1, h2⟩
        rcases List.mem_cons.mp h1 with rfl | h1
        · exact absurd hc h2
        · exact ⟨h1, h2⟩
    · rw [dedupFSAux, if_neg hc]
      constructor
      · intro h
        rcases List.mem_cons.mp h with rfl | h
        · exact ⟨List.mem_cons_self _ _, hc⟩
        · obtain ⟨h1, h2⟩ := (ih (c :: seen)).mp h
          exact ⟨List.mem_cons_of_mem _ h1,
            fun hs => h2 (List.mem_cons_of_mem _ hs)⟩
      · rintro ⟨h1, h2⟩
        rcases List.mem_cons.mp h1 with rfl | h1
        · exact List.mem_cons_self _ _
        · by_cases hac : a = c
          · subst hac; exact List.mem_cons_self _ _
          · exact List.mem_cons_of_mem _
              ((ih (c :: seen)).mpr
                ⟨h1, fun hs => (List.mem_cons.mp hs).elim hac h2⟩)

/-- The first-seen de-duplication lists elements in strictly increasing
order of their first occurrence in the input. -/
theorem pairwise_dedupFSAux {α : Type} [DecidableEq α] (seen l : List α) :
    (dedupFSAux seen l).Pairwise (fun a b => firstIdx a l < firstIdx b l) := by
  induction l generalizing seen with
  | nil => simp [dedupFSAux]
  | cons c cs ih =>
    by_cases hc : c ∈ seen
    · rw [dedupFSAux, if_pos hc]
      refine (ih seen).imp_of_mem ?_
      intro a b ha hb hab
      have hna : a ≠ c := fun h => ((mem_dedupFSAux seen cs a).mp ha).2 (h ▸ hc)
      have hnb : b ≠ c := fun h => ((mem_dedupFSAux seen cs b).mp hb).2 (h ▸ hc)
      rw [firstIdx, if_neg hna, firstIdx, if_neg hnb]
      omega
    · rw [dedupFSAux, if_neg hc]
      refine List.Pairwise.cons ?_ ?_
      · intro b hb
        have hb' := (mem_dedupFSAux (c :: seen) cs b).mp hb
        have hnb : b ≠ c := fun h => hb'.2 (h ▸ List.mem_cons_self c seen)
        rw [firstIdx, if_pos rfl, firstIdx, if_neg hnb]
        omega
      · refine (ih (c :: seen)).imp_of_mem ?_
        intro a b ha hb hab
        have hna : a ≠ c :=
          fun h => ((mem_dedupFSAux (c :: seen) cs a).mp ha).2 (h ▸ List.mem_cons_self c seen)
        have hnb : b ≠ c :=
          fun h => ((mem_dedupFSAux (c :: seen) cs b).mp hb).2 (h ▸ List.mem_cons_self c seen)
        rw [firstIdx, if_neg hna, firstIdx, if_neg hnb]
        omega

/-- First-seen de-duplication produces no duplicates. -/
theorem nodup_dedupFS {α : Type} [DecidableEq α] (l : List α) :
    (dedupFS l).Nodup := by
  have h := pairwise_dedupFSAux ([] : List α) l
  exact h.imp (fun {a b} hlt heq => by subst heq; exact absurd hlt (lt_irrefl _))

/-- Membership in `dedupFS`. -/
theorem mem_dedupFS {α : Type} [DecidableEq α] (l : List α) (a : α) :
    a ∈ dedupFS l ↔ a ∈ l := by
  simp [dedupFS, mem_dedupFSAux]

/-- `countEq` distributes over append. -/
theorem countEq_append {α : Type} [DecidableEq α] (a : α) (l₁ l₂ : List α) :
    countEq a (l₁ ++ l₂) = countEq a l₁ + countEq a l₂ := by
  induction l₁ with
  | nil => simp [countEq]
  | cons b l ih => simp [countEq, ih]; omega

/-- Each element occurs at most — and, when present and unseen, exactly —
once in the first-seen de-duplication. -/
theorem countEq_dedupFSAux {α : Type} [DecidableEq α] (a : α) (seen l : List α) :
    countEq a (dedupFSAux seen l) = if a ∈ l ∧ a ∉ seen then 1 else 0 := by
  induction l generalizing seen with
  | nil => simp [dedupFSAux, countEq]
  | cons c cs ih =>
    by_cases hc : c ∈ seen
    · rw [dedupFSAux, if_pos hc, ih seen]
      by_cases hac : a = c
      · subst hac
        simp [hc]
      · simp [List.mem_cons, hac]
    · rw [dedupFSAux, if_neg hc, countEq, ih (c :: seen)]
      by_cases hac : a = c
      · subst hac
        simp [hc, List.mem_cons]
      · simp [List.mem_cons, hac]

/-- `countEq` in `dedupFS`: one for members, zero otherwise. -/
theorem countEq_dedupFS {α : Type} [DecidableEq α] (a : α) (l : List α) :
    countEq a (dedupFS l) = if a ∈ l then 1 else 0 := by
  rw [dedupFS, countEq_dedupFSAux]
  simp

/-! ### Claim theorems -/

/-- Claim C1 (counterexample): `a/Counter.island.tsx` and
`b/Counter.island.tsx` share the basename `Counter.island.tsx` and are
distinct paths, yet `hash` gives them *different* 8-character ids — the
md5 is taken over the full path, so a shared basename does not imply a
shared id. -/
theorem c1_counterexample :
    basenameOf "a/Counter.island.tsx".data = basenameOf "b/Counter.island.tsx".data ∧
    "a/Counter.island.tsx".data ≠ "b/Counter.island.tsx".data ∧
    hash "a/Counter.island.tsx".data ≠ hash "b/Counter.island.tsx".data := by
  refine ⟨by decide, by decide, by decide⟩

/-- Claim C1 (amended): two distinct component paths sharing a basename do
*not* receive the same id — the id hashes the full path, and for this pair
the ids differ (`e601cead` vs `8b6f5a7a`); instead, the build orchestrator
detects the duplicate basename and groups both paths into a single warned
duplicate group. -/
theorem c1_amended :
    hash "a/Counter.island.tsx".data = "e601cead".data ∧
    hash "b/Counter.island.tsx".data = "8b6f5a7a".data ∧
    duplicateGroups ["a/Counter.island.tsx".data, "b/Counter.island.tsx".data] =
      [("Counter.island.tsx".data,
        ["a/Counter.island.tsx".data, "b/Counter.island.tsx".data])] := by
  refine ⟨by decide, by decide, by decide⟩

/-- Claim C2 (counterexample): the transform's classifier and the
bundler's classifier are *not* the same function — on `"foo.tsx"` the
transform says "neither" (`none`) while the bundler says island. -/
theorem c2_counterexample :
    getComponentType "foo.tsx".data = none ∧
    buildGetComponentType "foo.tsx".data = ComponentType.island := by
  constructor <;> rfl

/-- Claim C2 (amended): the two render-class deciders agree exactly on the
paths containing the `".island"` marker or the `".client."` marker but not
both; they diverge on paths with neither marker (transform: regular,
bundler: island) and on paths with both (transform: island, bundler:
client). -/
theorem c2_amended (s : Str) :
    getComponentType s = some (buildGetComponentType s) ↔
      ((includesStr s ".island".data = true ∧ includesStr s ".client.".data = false) ∨
        (includesStr s ".client.".data = true ∧ includesStr s ".island".data = false)) := by
  have hsub : ".client".data <:+: ".client.".data := by decide
  by_cases hI : includesStr s ".island".data = true
  · by_cases hD : includesStr s ".client.".data = true
    · simp [getComponentType, buildGetComponentType, hI, hD]
    · have hD' : includesStr s ".client.".data = false := by
        cases h : includesStr s ".client.".data
        · rfl
        · exact absurd h hD
      simp [getComponentType, buildGetComponentType, hI, hD']
  · have hI' : includesStr s ".island".data = false := by
      cases h : includesStr s ".island".data
      · rfl
      · exact absurd h hI
    by_cases hD : includesStr s ".client.".data = true
    · have hC : includesStr s ".client".data = true := includesStr_of_includesStr hsub hD
      simp [getComponentType, buildGetComponentType, hI', hD, hC]
    · have hD' : includesStr s ".client.".data = false := by
        cases h : includesStr s ".client.".data
        · rfl
        · exact absurd h hD
      by_cases hC : includesStr s ".client".data = true
      · simp [getComponentType, buildGetComponentType, hI', hD', hC]
      · have hC' : includesStr s ".client".data = false := by
          cases h : includesStr s ".client".data
          · rfl
          · exact absurd h hC
        simp [getComponentType, buildGetComponentType, hI', hD', hC']

/-- Witness for C2 (amended) at a marker-bearing path: on
`"x.island.tsx"` the two classifiers agree. -/
theorem c2_amended_witness :
    getComponentType "x.island.tsx".data =
      some (buildGetComponentType "x.island.tsx".data) :=
  (c2_amended "x.island.tsx".data).mpr (Or.inl ⟨by decide, by decide⟩)

/-- Claim C3 (counterexample): a spread attribute's underlying expression
is *not* passed through into the props aggregate — it is filtered out
entirely, leaving an empty aggregate. -/
theorem c3_counterexample :
    propsOf [JSXAttr.jsxSpreadAttribute (Expr.ident ['p'])] = [] := rfl

/-- Claim C3 (amended): the serialized props aggregate maps each named
attribute to its value expression, maps boolean-shorthand attributes to
`true`, and unwraps expression-container attributes to their underlying
expression unevaluated — but spread attributes are dropped from the
aggregate, not passed through. -/
theorem c3_amended (attrs : List JSXAttr) (n : Str) (e : Expr) :
    propsOf (attrs ++ [JSXAttr.jsxSpreadAttribute e]) = propsOf attrs ∧
    propsOf (attrs ++ [JSXAttr.jsxAttribute n none]) =
      propsOf attrs ++ [(n, Expr.boolLit true)] ∧
    propsOf (attrs ++ [JSXAttr.jsxAttribute n (some (AttrValue.exprContainer e))]) =
      propsOf attrs ++ [(n, e)] ∧
    propsOf (attrs ++ [JSXAttr.jsxAttribute n (some (AttrValue.lit e))]) =
      propsOf attrs ++ [(n, e)] := by
  refine ⟨?_, ?_, ?_, ?_⟩ <;>
    simp [propsOf, List.filter_append, List.map_append, isJSXAttribute,
      propEntry, attrValueExpr]

/-- Witness for C3 (amended) at concrete inputs. -/
theorem c3_amended_witness :
    propsOf ([JSXAttr.jsxAttribute "count".data (some (AttrValue.exprContainer (Expr.numLit 5)))] ++
        [JSXAttr.jsxSpreadAttribute (Expr.ident ['q'])]) =
      propsOf [JSXAttr.jsxAttribute "count".data (some (AttrValue.exprContainer (Expr.numLit 5)))] ∧
    propsOf ([JSXAttr.jsxAttribute "count".data (some (AttrValue.exprContainer (Expr.numLit 5)))] ++
        [JSXAttr.jsxAttribute "disabled".data none]) =
      propsOf [JSXAttr.jsxAttribute "count".data (some (AttrValue.exprContainer (Expr.numLit 5)))] ++
        [("disabled".data, Expr.boolLit true)] ∧
    propsOf ([JSXAttr.jsxAttribute "count".data (some (AttrValue.exprContainer (Expr.numLit 5)))] ++
        [JSXAttr.jsxAttribute "user".data (some (AttrValue.exprContainer (Expr.ident ['u'])))]) =
      propsOf [JSXAttr.jsxAttribute "count".data (some (AttrValue.exprContainer (Expr.numLit 5)))] ++
        [("user".data, Expr.ident ['u'])] ∧
    propsOf ([JSXAttr.jsxAttribute "count".data (some (AttrValue.exprContainer (Expr.numLit 5)))] ++
        [JSXAttr.jsxAttribute "name".data (some (AttrValue.lit (Expr.strLit "test".data)))]) =
      propsOf [JSXAttr.jsxAttribute "count".data (some (AttrValue.exprContainer (Expr.numLit 5)))] ++
        [("name".data, Expr.strLit "test".data)] :=
  ⟨(c3_amended [JSXAttr.jsxAttribute "count".data
      (some (AttrValue.exprContainer (Expr.numLit 5)))] "disabled".data (Expr.ident ['q'])).1,
   (c3_amended [JSXAttr.jsxAttribute "count".data
      (some (AttrValue.exprContainer (Expr.numLit 5)))] "disabled".data (Expr.ident ['q'])).2.1,
   (c3_amended [JSXAttr.jsxAttribute "count".data
      (some (AttrValue.exprContainer (Expr.numLit 5)))] "user".data (Expr.ident ['u'])).2.2.1,
   (c3_amended [JSXAttr.jsxAttribute "count".data
      (some (AttrValue.exprContainer (Expr.numLit 5)))] "name".data (Expr.strLit "test".data)).2.2.2⟩

/-- Claim C4 (confirmed): a wrapped usage site gets the wrapper tag of its
render class; a Client usage keeps *no* children, an Island usage keeps
the original usage node — verbatim, with its inner children untouched by
any further rewriting — as the placeholder's only child. -/
theorem c4_wrapper_children (m : List (Str × Component)) (dev : Bool)
    (tag : Str) (attrs : List JSXAttr) (children : List Node)
    (comp : Component) (h : mapGet m tag = some comp) :
    tagOfNode (rewriteNode m dev (Node.elem tag attrs children)) =
      (if comp.type = ComponentType.island then "solid-island".data
        else "solid-client".data) ∧
    (comp.type = ComponentType.client →
      childrenOfNode (rewriteNode m dev (Node.elem tag attrs children)) = []) ∧
    (comp.type = ComponentType.island →
      childrenOfNode (rewriteNode m dev (Node.elem tag attrs children)) =
        [Node.elem tag attrs children]) := by
  have hrw : rewriteNode m dev (Node.elem tag attrs children) =
      wrapUsage comp dev (Node.elem tag attrs children) := by
    simp [rewriteNode, h]
  rcases comp with ⟨cpath, cty⟩
  cases cty <;>
    simp [hrw, wrapUsage, jsx, tagOfNode, childrenOfNode]

/-- Witness for C4 at a concrete Island usage with a child, and a concrete
Client usage with a child. -/
theorem c4_wrapper_children_witness :
    (ComponentType.island = ComponentType.island →
      childrenOfNode
        (rewriteNode [("Counter".data,
            ⟨"/test/Counter.island.tsx".data, ComponentType.island⟩)] false
          (Node.elem "Counter".data [] [Node.text "hi".data])) =
        [Node.elem "Counter".data [] [Node.text "hi".data]]) ∧
    (ComponentType.client = ComponentType.client →
      childrenOfNode
        (rewriteNode [("Widget".data,
            ⟨"/test/Widget.client.tsx".data, ComponentType.client⟩)] false
          (Node.elem "Widget".data [] [Node.text "hi".data])) = []) :=
  ⟨(c4_wrapper_children
      [("Counter".data, ⟨"/test/Counter.island.tsx".data, ComponentType.island⟩)]
      false "Counter".data [] [Node.text "hi".data]
      ⟨"/test/Counter.island.tsx".data, ComponentType.island⟩ rfl).2.2,
   (c4_wrapper_children
      [("Widget".data, ⟨"/test/Widget.client.tsx".data, ComponentType.client⟩)]
      false "Widget".data [] [Node.text "hi".data]
      ⟨"/test/Widget.client.tsx".data, ComponentType.client⟩ rfl).2.1⟩

/-- Claim C5 (confirmed): in `dom` (browser) mode the transform is the
identity on the modelled AST — it never injects the seroval import or the
`__seroval_serialize` binding and never introduces `solid-island`/
`solid-client` wrapper elements, regardless of which island/client imports
the input contains. -/
theorem c5_mode_isolation (source : Program) (filename : Str) (dev : Bool) :
    transform source filename Mode.dom dev = source ∧
    (hasSerovalImport source = false →
      hasSerovalImport (transform source filename Mode.dom dev) = false) ∧
    (hasSerovalBinding source = false →
      hasSerovalBinding (transform source filename Mode.dom dev) = false) ∧
    (progHasWrapperTag source = false →
      progHasWrapperTag (transform source filename Mode.dom dev) = false) :=
  ⟨rfl, fun h => h, fun h => h, fun h => h⟩

/-- Witness for C5 at a program that imports and uses an island: compiled
in `dom` mode it is returned unchanged, with no seroval injection and no
wrapper tags. -/
theorem c5_mode_isolation_witness :
    transform
        [Stmt.importStmt ⟨"./Counter.island".data,
            [ImportSpecifier.importDefaultSpecifier "Counter".data]⟩,
         Stmt.jsxStmt (Node.elem "Counter".data [] [])]
        "/test/Page.tsx".data Mode.dom false =
      [Stmt.importStmt ⟨"./Counter.island".data,
          [ImportSpecifier.importDefaultSpecifier "Counter".data]⟩,
       Stmt.jsxStmt (Node.elem "Counter".data [] [])] ∧
    hasSerovalImport
      (transform
        [Stmt.importStmt ⟨"./Counter.island".data,
            [ImportSpecifier.importDefaultSpecifier "Counter".data]⟩,
         Stmt.jsxStmt (Node.elem "Counter".data [] [])]
        "/test/Page.tsx".data Mode.dom false) = false ∧
    progHasWrapperTag
      (transform
        [Stmt.importStmt ⟨"./Counter.island".data,
            [ImportSpecifier.importDefaultSpecifier "Counter".data]⟩,
         Stmt.jsxStmt (Node.elem "Counter".data [] [])]
        "/test/Page.tsx".data Mode.dom false) = false :=
  ⟨(c5_mode_isolation
      [Stmt.importStmt ⟨"./Counter.island".data,
          [ImportSpecifier.importDefaultSpecifier "Counter".data]⟩,
       Stmt.jsxStmt (Node.elem "Counter".data [] [])]
      "/test/Page.tsx".data false).1,
   (c5_mode_isolation
      [Stmt.importStmt ⟨"./Counter.island".data,
          [ImportSpecifier.importDefaultSpecifier "Counter".data]⟩,
       Stmt.jsxStmt (Node.elem "Counter".data [] [])]
      "/test/Page.tsx".data false).2.1 rfl,
   (c5_mode_isolation
      [Stmt.importStmt ⟨"./Counter.island".data,
          [ImportSpecifier.importDefaultSpecifier "Counter".data]⟩,
       Stmt.jsxStmt (Node.elem "Counter".data [] [])]
      "/test/Page.tsx".data false).2.2.2 rfl⟩

/-- Claim C6 (counterexample): on a body where the same id `"aa"` appears
once under a `solid-island` tag and once under a `solid-client` tag, the
script-injection emits *two* script references for that single distinct
id — the de-duplication is per render class, not per id. -/
theorem c6_counterexample :
    htmlScriptIds ("<solid-island data-id=\"aa\"><solid-client data-id=\"aa\">").data =
      ["aa".data, "aa".data] ∧
    ¬countEq "aa".data
        (htmlScriptIds ("<solid-island data-id=\"aa\"><solid-client data-id=\"aa\">").data) = 1 := by
  constructor
  · decide
  · decide

/-- Claim C6 (amended): the script ids are the island ids followed by the
client ids, *each group separately* de-duplicated and listed in strictly
increasing order of first occurrence in the HTML; every present id appears
and, provided no id occurs under both tag kinds, each distinct id gets
exactly one script tag. -/
theorem c6_amended (body : Str) :
    htmlScriptIds body =
      dedupFS (islandIdsInOrder body) ++ dedupFS (clientIdsInOrder body) ∧
    (dedupFS (islandIdsInOrder body)).Pairwise
      (fun a b => firstIdx a (islandIdsInOrder body) <
        firstIdx b (islandIdsInOrder body)) ∧
    (dedupFS (clientIdsInOrder body)).Pairwise
      (fun a b => firstIdx a (clientIdsInOrder body) <
        firstIdx b (clientIdsInOrder body)) ∧
    (∀ id, id ∈ htmlScriptIds body ↔
      id ∈ islandIdsInOrder body ∨ id ∈ clientIdsInOrder body) ∧
    ((∀ id, ¬(id ∈ islandIdsInOrder body ∧ id ∈ clientIdsInOrder body)) →
      ∀ id ∈ htmlScriptIds body, countEq id (htmlScriptIds body) = 1) := by
  refine ⟨rfl, pairwise_dedupFSAux [] _, pairwise_dedupFSAux [] _, ?_, ?_⟩
  · intro id
    rw [htmlScriptIds, List.mem_append, mem_dedupFS, mem_dedupFS]
  · intro hdisj id hid
    rw [htmlScriptIds, countEq_append, countEq_dedupFS, countEq_dedupFS]
    rw [htmlScriptIds, List.mem_append] at hid
    rcases hid with h | h
    · have hI : id ∈ islandIdsInOrder body := (mem_dedupFS _ _).mp h
      have hC : id ∉ clientIdsInOrder body := fun hc => hdisj id ⟨hI, hc⟩
      rw [if_pos hI, if_neg hC]
    · have hC : id ∈ clientIdsInOrder body := (mem_dedupFS _ _).mp h
      have hI : id ∉ islandIdsInOrder body := fun hc => hdisj id ⟨hc, hC⟩
      rw [if_pos hC, if_neg hI]

/-- Witness for C6 (amended) at the spec's P11 body: the same island id
twice collapses to a single script tag. -/
theorem c6_amended_witness :
    htmlScriptIds ("<solid-island data-id=\"x1\"></solid-island><solid-island data-id=\"x1\">").data =
      dedupFS (islandIdsInOrder
        ("<solid-island data-id=\"x1\"></solid-island><solid-island data-id=\"x1\">").data) ++
      dedupFS (clientIdsInOrder
        ("<solid-island data-id=\"x1\"></solid-island><solid-island data-id=\"x1\">").data) ∧
    htmlScriptIds ("<solid-island data-id=\"x1\"></solid-island><solid-island data-id=\"x1\">").data =
      ["x1".data] := by
  constructor
  · exact (c6_amended
      ("<solid-island data-id=\"x1\"></solid-island><solid-island data-id=\"x1\">").data).1
  · decide

/-- Claim C7 (confirmed): when the bundler reports failure
(`result.success = false`) the orchestrator logs `"Build failed:"` and one
detail line per bundler message, and still returns normally — the result
is `.ok`, never an exception. -/
theorem c7_build_failure (rel : Str → Str) (outdir : Str) (files : List Str)
    (verbose dev : Bool) (result : BuildResult)
    (hfail : result.success = false) (hne : files ≠ []) :
    ∃ logs, buildIslands rel outdir files verbose dev result = Except.ok logs ∧
      LogMsg.error "Build failed:".data ∈ logs ∧
      ∀ msg ∈ result.logs, LogMsg.error ("  ".data ++ msg) ∈ logs := by
  have hlen : ¬files.length = 0 := by
    simpa [List.length_eq_zero] using hne
  unfold buildIslands
  rw [if_neg hlen, hfail]
  refine ⟨_, rfl, ?_, ?_⟩
  · simp
  · intro msg hmsg
    simp only [List.mem_append, Bool.false_eq_true, if_false, List.mem_cons,
      List.mem_map]
    exact Or.inr (Or.inr ⟨msg, hmsg, rfl⟩)

/-- Witness for C7 at a concrete failed build with one error message. -/
theorem c7_build_failure_witness :
    ∃ logs,
      buildIslands id "_ssr".data ["/a/Counter.island.tsx".data] false false
          ⟨false, ["oops".data]⟩ = Except.ok logs ∧
      LogMsg.error "Build failed:".data ∈ logs ∧
      ∀ msg ∈ (⟨false, ["oops".data]⟩ : BuildResult).logs,
        LogMsg.error ("  ".data ++ msg) ∈ logs :=
  c7_build_failure id "_ssr".data ["/a/Counter.island.tsx".data] false false
    ⟨false, ["oops".data]⟩ rfl (by simp)

/-- A set `islandsBuilt` flag makes every further trigger call a no-op. -/
theorem runEnsureCalls_true (call : BuildCall) (n : Nat) :
    runEnsureCalls call n true = [] := by
  induction n with
  | zero => rfl
  | succ k ih => simp [runEnsureCalls, ensureIslands, ih]

/-- Claim C8 (confirmed): over any number `n` of trigger calls in one
process lifetime (from `onStart` or any `onLoad` hook), starting unbuilt,
`buildIslands` is invoked exactly once when `n ≥ 1` — every call after the
first is a no-op and no second invocation ever happens. -/
theorem c8_build_once (call : BuildCall) (n : Nat) :
    runEnsureCalls call n false = if n = 0 then [] else [call] := by
  cases n with
  | zero => rfl
  | succ k => simp [runEnsureCalls, ensureIslands, runEnsureCalls_true]

/-- Witness for C8: three trigger calls with the plugin's default
configuration produce exactly one `buildIslands` invocation. -/
theorem c8_build_once_witness :
    runEnsureCalls (mkBuildCall none none false) 3 false =
      if 3 = 0 then [] else [mkBuildCall none none false] :=
  c8_build_once (mkBuildCall none none false) 3

/-- The right-to-left accumulation of `resolve` yields an absolute path
whenever the working directory is absolute. -/
theorem isAbsolute_joinUntilAbsolute (cwd : Str) (h : isAbsolute cwd = true)
    (l : List Str) : isAbsolute (joinUntilAbsolute cwd l) = true := by
  induction l with
  | nil => exact h
  | cons p rest ih =>
    by_cases hp : isAbsolute p = true
    · simp [joinUntilAbsolute, hp]
    · have hp' : isAbsolute p = false := by
        cases hq : isAbsolute p
        · rfl
        · exact absurd hq hp
      rw [joinUntilAbsolute, hp']
      simp only [Bool.false_eq_true, if_false]
      rcases hj : joinUntilAbsolute cwd rest with _ | ⟨c, t⟩
      · rw [hj] at ih
        simp [isAbsolute] at ih
      · rw [hj] at ih
        simp only [isAbsolute, List.cons_append, List.head?] at ih ⊢
        exact ih

/-- The `".."`-free invariant of absolute-path normalization: no output
segment is empty, `"."`, or `".."`. -/
theorem normSegs_false_clean (segs : List Str) :
    ∀ s ∈ normSegs false segs, s ≠ [] ∧ s ≠ ['.'] ∧ s ≠ ['.', '.'] := by
  have inv : ∀ (l acc : List Str),
      (∀ s ∈ acc, s ≠ [] ∧ s ≠ ['.'] ∧ s ≠ ['.', '.']) →
      ∀ s ∈ l.foldl (normStep false) acc, s ≠ [] ∧ s ≠ ['.'] ∧ s ≠ ['.', '.'] := by
    intro l
    induction l with
    | nil => intro acc hacc; simpa using hacc
    | cons seg rest ih =>
      intro acc hacc s hs
      rw [List.foldl_cons] at hs
      refine ih _ ?_ s hs
      intro x hx
      unfold normStep at hx
      by_cases h1 : seg = [] ∨ seg = ['.']
      · rw [if_pos h1] at hx
        exact hacc x hx
      · rw [if_neg h1] at hx
        by_cases h2 : seg = ['.', '.']
        · rw [if_pos h2] at hx
          by_cases h3 : acc ≠ [] ∧ acc.getLast? ≠ some ['.', '.']
          · rw [if_pos h3] at hx
            exact hacc x ((List.dropLast_sublist acc).subset hx)
          · rw [if_neg h3] at hx
            simp only [Bool.false_eq_true, if_false] at hx
            exact hacc x hx
        · rw [if_neg h2] at hx
          rcases List.mem_append.mp hx with hx' | hx'
          · exact hacc x hx'
          · have : x = seg := by simpa using hx'
            subst this
            push_neg at h1
            exact ⟨h1.1, h1.2, h2⟩
  exact inv segs [] (by simp)

/-- Claim C9 (confirmed): `safePath` returns either `null` or the resolved
path; a returned path is absolute, fully normalized (its `"/"`-separated
segments contain no `""`, `"."` or `".."`), and strictly inside the base
directory (`resolve(base) + "/"` is a proper prefix); conversely any
request whose resolution does not lie strictly inside the base yields
`null` — so no served path ever escapes the output directory. -/
theorem c9_safePath :
    (∀ cwd base filename p, isAbsolute cwd = true →
      safePath cwd base filename = some p →
      isAbsolute p = true ∧
      (resolvePath cwd [base] ++ ['/']) <+: p ∧
      ∃ segs : List Str, p = '/' :: List.intercalate ['/'] segs ∧
        ∀ seg ∈ segs, seg ≠ [] ∧ seg ≠ ['.'] ∧ seg ≠ ['.', '.']) ∧
    (∀ cwd base filename,
      ¬(resolvePath cwd [base] ++ ['/']) <+: resolvePath cwd [base, filename] →
      safePath cwd base filename = none) := by
  constructor
  · intro cwd base filename p hcwd hsome
    have habs : isAbsolute (joinUntilAbsolute cwd [base, filename].reverse) = true :=
      isAbsolute_joinUntilAbsolute cwd hcwd _
    have hres : resolvePath cwd [base, filename] =
        '/' :: List.intercalate ['/']
          (normSegs false (splitSlash (joinUntilAbsolute cwd [base, filename].reverse))) := by
      rw [resolvePath]
      simp only [habs, if_pos, Bool.not_true]
    rw [safePath] at hsome
    by_cases hcond :
        (resolvePath cwd [base] ++ ['/']) <+: resolvePath cwd [base, filename]
    · rw [if_pos (decide_eq_true hcond)] at hsome
      simp only [Option.some.injEq] at hsome
      subst hsome
      refine ⟨?_, hcond, ?_⟩
      · rw [hres]; rfl
      · exact ⟨_, hres, normSegs_false_clean _⟩
    · rw [if_neg (by simpa using hcond)] at hsome
      exact absurd hsome (by simp)
  · intro cwd base filename hnot
    rw [safePath, if_neg (by simpa using hnot)]

/-- Witness for C9: the repository's own test inputs —
`safePath("/app/_ssr", "chunk.js")` returns the in-base resolved path
(and the theorem's guarantees hold for it). -/
theorem c9_safePath_witness :
    isAbsolute "/app/_ssr/chunk.js".data = true ∧
    (resolvePath "/w".data ["/app/_ssr".data] ++ ['/']) <+: "/app/_ssr/chunk.js".data ∧
    ∃ segs : List Str, "/app/_ssr/chunk.js".data = '/' :: List.intercalate ['/'] segs ∧
      ∀ seg ∈ segs, seg ≠ [] ∧ seg ≠ ['.'] ∧ seg ≠ ['.', '.'] :=
  c9_safePath.1 "/w".data "/app/_ssr".data "chunk.js".data
    "/app/_ssr/chunk.js".data (by decide) (by decide)

/-- Claim C10 (confirmed): an import declaration whose source carries an
island/client marker but has *no* default-import specifier records no
binding (`processImport` leaves the import map unchanged), and a JSX usage
whose tag is bound by no recorded import is left unwrapped — the element
keeps its tag and attributes, only its children being traversed. -/
theorem c10_default_import_only (filename : Str) (d : ImportDecl)
    (m : List (Str × Component)) (dev : Bool) (tag : Str)
    (attrs : List JSXAttr) (children : List Node)
    (hmarker : (getComponentType d.source).isSome = true)
    (hnodefault : ∀ spec ∈ d.specifiers, isDefaultSpecifier spec = false) :
    processImport filename m d = m ∧
    (mapGet m tag = none →
      rewriteNode m dev (Node.elem tag attrs children) =
        Node.elem tag attrs (rewriteNodes m dev children)) := by
  constructor
  · have hfind : d.specifiers.find? isDefaultSpecifier = none :=
      List.find?_eq_none.mpr (fun x hx => by simp [hnodefault x hx])
    rcases hty : getComponentType d.source with _ | ty
    · rw [hty] at hmarker
      simp at hmarker
    · simp [processImport, hty, hfind]
  · intro hnone
    simp [rewriteNode, hnone]

/-- Witness for C10: a named-only import of `./Counter.island` records
nothing and the `<Counter/>` usage stays unwrapped. -/
theorem c10_default_import_only_witness :
    processImport "/test/Page.tsx".data []
        ⟨"./Counter.island".data,
          [ImportSpecifier.importNamedSpecifier "Counter".data "Counter".data]⟩ = [] ∧
    (mapGet [] "Counter".data = none →
      rewriteNode [] false (Node.elem "Counter".data [] []) =
        Node.elem "Counter".data [] (rewriteNodes [] false [])) :=
  c10_default_import_only "/test/Page.tsx".data
    ⟨"./Counter.island".data,
      [ImportSpecifier.importNamedSpecifier "Counter".data "Counter".data]⟩
    [] false "Counter".data [] [] (by decide) (by decide)

end Ssr
